import Mathlib

/-
Verification of the GPU monitor core (gpu_monitor.py): the parser
parse_gpu_data, the reconciler build_or_update_dashboard, the display
derivations of _update_gpu_card, the temperature banding get_temp_style,
the failure path of refresh_gpu_data, and the wait of monitor_loop.

Text is modelled as Lean String / List Char.  Python float values are
modelled as rationals: parsed literal values exactly, and the one place
where double rounding is observable in a claim (the memory percentage)
through fl53, an exact dyadic model of rounding to the nearest binary64
value.  The modelled literal grammar for float() and int() covers
optional sign, digits, decimal point and exponent, and excludes the
non-finite literals (nan, inf) and underscore digit separators, which
the telemetry source never emits.
-/

/-- Whitespace characters stripped by the Python str.strip method
(ASCII subset; the source text is ASCII). -/
def isWS (c : Char) : Bool :=
  c = ' ' || c = '\t' || c = '\n' || c = '\r' || c = '\x0b' || c = '\x0c'

/-- Both-ends whitespace trim, modelling str.strip on a character list. -/
def trimChars (cs : List Char) : List Char :=
  ((cs.dropWhile isWS).reverse.dropWhile isWS).reverse

/-- Split on a single separator character, modelling the Python
str.split with a one-character separator: the empty list yields one
empty field, n separators yield n+1 fields. -/
def splitOnChar (sep : Char) : List Char → List (List Char)
  | [] => [[]]
  | c :: rest =>
    let r := splitOnChar sep rest
    if c = sep then [] :: r
    else
      match r with
      | [] => [[c]]
      | h :: t => (c :: h) :: t

/-- Numeric value of a digit string (digits already validated). -/
def digitsVal (cs : List Char) : Nat :=
  cs.foldl (fun a c => a * 10 + (c.toNat - 48)) 0

/-- Validated digit-run parse: nonempty and all decimal digits. -/
def parseDigits? (cs : List Char) : Option Nat :=
  if cs.isEmpty then none
  else if cs.all Char.isDigit then some (digitsVal cs) else none

/-- Signed integer literal, modelling the Python int() grammar on an
already stripped string (optional sign then digits). -/
def pyIntChars? (cs : List Char) : Option Int :=
  match cs with
  | '+' :: rest => (parseDigits? rest).map (fun n => (n : Int))
  | '-' :: rest => (parseDigits? rest).map (fun n => -(n : Int))
  | _ => (parseDigits? cs).map (fun n => (n : Int))

/-- Mantissa of a float literal: digits, optionally with one decimal
point, at least one digit in total. -/
def parseMantissa? (cs : List Char) : Option ℚ :=
  let ip := cs.takeWhile (fun c => c ≠ '.')
  match cs.dropWhile (fun c => c ≠ '.') with
  | [] => (parseDigits? ip).map (fun n => (n : ℚ))
  | _ :: frac =>
    if ip.all Char.isDigit && frac.all Char.isDigit && !(ip.isEmpty && frac.isEmpty)
    then some ((digitsVal ip : ℚ) + (digitsVal frac : ℚ) / (10 : ℚ) ^ frac.length)
    else none

/-- Scale a rational by a signed power of ten (float exponent part). -/
def scalePow10 (m : ℚ) : Int → ℚ
  | Int.ofNat n => m * (10 : ℚ) ^ n
  | Int.negSucc n => m / (10 : ℚ) ^ (n + 1)

/-- Unsigned float literal: mantissa with optional exponent part. -/
def pyFloatCore? (cs : List Char) : Option ℚ :=
  let mant := cs.takeWhile (fun c => c ≠ 'e' && c ≠ 'E')
  match cs.dropWhile (fun c => c ≠ 'e' && c ≠ 'E') with
  | [] => parseMantissa? mant
  | _ :: ex =>
    match parseMantissa? mant, pyIntChars? ex with
    | some m, some e => some (scalePow10 m e)
    | _, _ => none

/-- Python float() on an already stripped string, as an exact rational:
optional sign then unsigned literal; none models the raised ValueError. -/
def pyFloat? (cs : List Char) : Option ℚ :=
  match cs with
  | '+' :: rest => pyFloatCore? rest
  | '-' :: rest => (pyFloatCore? rest).map (fun q => -q)
  | _ => pyFloatCore? cs

/-- Truncation toward zero, modelling the Python int() applied to a
float value. -/
def pyTrunc (q : ℚ) : Int :=
  if q < 0 then -(Int.floor (-q)) else Int.floor q

/-- Helper to_int of parse_gpu_data: int(float(value)), none on failure
(the except branch returning None). -/
def to_int (cs : List Char) : Option Int :=
  (pyFloat? cs).map pyTrunc

/-- Helper to_float of parse_gpu_data: float(value), none on failure. -/
def to_float (cs : List Char) : Option ℚ :=
  pyFloat? cs

/-- One device record, mirroring the per-GPU dict built by
parse_gpu_data: optional fields are None on coercion failure. -/
structure GpuInfo where
  name : String
  temperature : Option Int
  utilization : Option Int
  memory_used : Option Int
  memory_total : Option Int
  power_draw : Option ℚ
deriving DecidableEq, Repr

/-- Lookup in an association list keyed by strings, modelling Python
dict access (keys are unique in every dict this file builds). -/
def lookupD {α : Type} (k : String) : List (String × α) → Option α
  | [] => none
  | (k2, v) :: rest => if k2 = k then some v else lookupD k rest

/-- Insert-or-replace keyed by a string, modelling assignment into a
Python dict: an existing key keeps its position, a new key appends. -/
def dictInsert {α : Type} (k : String) (v : α) : List (String × α) → List (String × α)
  | [] => [(k, v)]
  | (k2, v2) :: rest =>
    if k2 = k then (k, v) :: rest else (k2, v2) :: dictInsert k v rest

/-- Field list of one input line: split on commas, each part stripped. -/
def lineParts (line : List Char) : List (List Char) :=
  (splitOnChar ',' line).map trimChars

/-- Indexed field access with the empty default (used only below the
checked length bound, where the default is never taken). -/
def getPart (parts : List (List Char)) (i : Nat) : List Char :=
  parts.getD i []

/-- Record built from the first seven fields of a line, exactly as
parse_gpu_data fills the per-GPU dict. -/
def recordOfParts (parts : List (List Char)) : GpuInfo :=
  { name := String.mk (getPart parts 1)
    temperature := to_int (getPart parts 2)
    utilization := to_int (getPart parts 3)
    memory_used := to_int (getPart parts 4)
    memory_total := to_int (getPart parts 5)
    power_draw := to_float (getPart parts 6) }

/-- One loop iteration of parse_gpu_data: blank lines and lines with
fewer than seven fields leave the dict unchanged; otherwise the record
is stored under the stripped first field. -/
def parseStep (acc : List (String × GpuInfo)) (line : List Char) : List (String × GpuInfo) :=
  if trimChars line ≠ [] then
    let parts := lineParts line
    if 7 ≤ parts.length then
      dictInsert (String.mk (getPart parts 0)) (recordOfParts parts) acc
    else acc
  else acc

/-- Parser parse_gpu_data: empty input short-circuits to the empty
dict; otherwise the input is stripped, split into lines and folded. -/
def parse_gpu_data (data : String) : List (String × GpuInfo) :=
  if data = "" then []
  else (splitOnChar '\n' (trimChars data.data)).foldl parseStep []

/-- Temperature style of get_temp_style: the None guard first, then the
80 and 70 thresholds, otherwise the nominal style. -/
def get_temp_style (temperature_c : Option Int) : String :=
  match temperature_c with
  | none => "Muted.TLabel"
  | some t =>
    if t ≥ 80 then "TempHigh.TLabel"
    else if t ≥ 70 then "TempWarn.TLabel"
    else "TempOk.TLabel"

/-- Utilization number shown by _update_gpu_card: int value when
present, 0 when the stored field is None. -/
def util_val (info : GpuInfo) : Int :=
  info.utilization.getD 0

/-- Progress-bar value for utilization: clamped into [0, 100] at the
widget, not in the stored record. -/
def util_bar_value (info : GpuInfo) : Int :=
  max 0 (min (util_val info) 100)

/-- Label text next to the utilization bar (the unclamped number). -/
def util_label_text (info : GpuInfo) : String :=
  toString (util_val info) ++ "%"

/-- Memory-used value of _update_gpu_card: the stored field with
None (and 0) collapsing to 0 through the or-default. -/
def mem_used_i (info : GpuInfo) : Int :=
  info.memory_used.getD 0

/-- Memory-total value of _update_gpu_card: nonpositive totals collapse
to 0, disarming the division below. -/
def mem_total_i (info : GpuInfo) : Int :=
  let t := info.memory_total.getD 0
  if t > 0 then t else 0

/-- Fueled floor base-2 logarithm on naturals (the fuel of n always
suffices and keeps the recursion structural). -/
def natLog2F : Nat → Nat → Nat
  | 0, _ => 0
  | fuel + 1, n => if 2 ≤ n then natLog2F fuel (n / 2) + 1 else 0

/-- Floor base-2 logarithm of a positive natural. -/
def natLog2 (n : Nat) : Nat :=
  natLog2F n n

/-- Decides 2 to the power c compared against the fraction a over b. -/
def le2pow (c : Int) (b a : Nat) : Bool :=
  match c with
  | Int.ofNat n => decide (b * 2 ^ n ≤ a)
  | Int.negSucc n => decide (b ≤ a * 2 ^ (n + 1))

/-- Floor base-2 logarithm of a positive rational: the candidate from
the numerator and denominator logs, corrected downward when needed. -/
def ilog2Pos (q : ℚ) : Int :=
  let a := q.num.natAbs
  let b := q.den
  let d : Int := (natLog2 a : Int) - (natLog2 b : Int)
  if le2pow d b a then d else d - 1

/-- Exact multiplication by a signed power of two. -/
def mulPow2 (q : ℚ) : Int → ℚ
  | Int.ofNat n => q * ((2 ^ n : Nat) : ℚ)
  | Int.negSucc n => q / ((2 ^ (n + 1) : Nat) : ℚ)

/-- Round to the nearest integer with ties to even (the IEEE 754
default rounding used by Python floats). -/
def roundHalfEvenInt (q : ℚ) : Int :=
  let f := Int.floor q
  let r : ℚ := q - (f : ℚ)
  if r < 1 / 2 then f
  else if (1 : ℚ) / 2 < r then f + 1
  else if f % 2 = 0 then f else f + 1

/-- Rounding of a positive rational to the nearest binary64 value: the
value is scaled so its significand lies in the 53-bit window, rounded
to an integer with ties to even, and scaled back. -/
def fl53Pos (q : ℚ) : ℚ :=
  let s : Int := 52 - ilog2Pos q
  mulPow2 ((roundHalfEvenInt (mulPow2 q s) : ℚ)) (-s)

/-- Rounding of a rational to the nearest IEEE double, modelled exactly
as a dyadic rational, for the normal range (overflow and subnormals
cannot arise from the integer-valued display inputs of this program). -/
def fl53 (q : ℚ) : ℚ :=
  if q = 0 then 0
  else if q < 0 then -(fl53Pos (-q)) else fl53Pos q

/-- Memory percentage of _update_gpu_card: int((used / total) * 100)
computed as the Python float expression computes it, with the quotient
rounded to the nearest double, the product with 100 rounded again, and
int() truncating toward zero; 0 when the total is 0, with no division
performed. -/
def mem_pct (info : GpuInfo) : Int :=
  if mem_total_i info ≠ 0 then
    pyTrunc (fl53 (fl53 ((mem_used_i info : ℚ) / (mem_total_i info : ℚ)) * 100))
  else 0

/-- Progress-bar value for memory, clamped like the utilization bar. -/
def mem_bar_value (info : GpuInfo) : Int :=
  max 0 (min (mem_pct info) 100)

/-- Memory label text: used / total MB with the percentage. -/
def mem_label_text (info : GpuInfo) : String :=
  toString (mem_used_i info) ++ " / " ++ toString (mem_total_i info) ++ " MB ("
    ++ toString (mem_pct info) ++ "%)"

/-- Fixed two-decimal rendering of a rational, modelling the .2f format
of the power label on the exact-arithmetic side. -/
def format2 (q : ℚ) : String :=
  let n : Int := round (q * 100)
  let m := n.natAbs
  (if n < 0 then "-" else "") ++ toString (m / 100) ++ "."
    ++ (if m % 100 < 10 then "0" else "") ++ toString (m % 100)

/-- Power label of _update_gpu_card: a present value renders with two
decimals and the W unit; a missing value raises inside float() and the
except branch renders the unknown marker. -/
def power_label_text (info : GpuInfo) : String :=
  match info.power_draw with
  | some q => format2 q ++ " W"
  | none => "-- W"

/-- Set-equality test on id lists, modelling the comparison of
set(gpu_cards.keys()) with set(gpu_data.keys()). -/
def eqAsSets (a b : List String) : Bool :=
  a.all (fun x => b.contains x) && b.all (fun x => a.contains x)

/-- Pairing of each id with its int() sort key; none models the
TypeError escaping from sorted(..., key=int) on a non-numeric id. -/
def attachIntKeys : List String → Option (List (Int × String))
  | [] => some []
  | k :: rest =>
    match pyIntChars? k.data, attachIntKeys rest with
    | some n, some r => some ((n, k) :: r)
    | _, _ => none

/-- Comparison used to sort ids: ascending by the attached int key. -/
def keyLe (a b : Int × String) : Prop :=
  a.1 ≤ b.1

instance : DecidableRel keyLe :=
  fun a b => inferInstanceAs (Decidable (a.1 ≤ b.1))

instance : IsTotal (Int × String) keyLe :=
  ⟨fun a b => le_total a.1 b.1⟩

instance : IsTrans (Int × String) keyLe :=
  ⟨fun _ _ _ h1 h2 => le_trans h1 h2⟩

/-- Ids sorted ascending by numeric value, modelling
sorted(gpu_data.keys(), key=int); a stable sort, as the Python one. -/
def sortIdsNumeric (ids : List String) : Option (List String) :=
  (attachIntKeys ids).map (fun keyed => (keyed.insertionSort keyLe).map Prod.snd)

/-- Outcome of one build_or_update_dashboard call: either a rebuild
with the imposed id order, or an in-place update; both carry the
records delivered to _update_gpu_card in the final loop. -/
inductive ReconcileOutcome where
  | rebuild (orderedIds : List String) (deliveries : List (String × GpuInfo))
  | update (deliveries : List (String × GpuInfo))
deriving DecidableEq, Repr

/-- Reconciler build_or_update_dashboard: compares the previous card-id
set with the new key set; on difference it rebuilds in sorted numeric
id order, otherwise it updates the existing cards; the update loop
delivers every record whose id has a card. -/
def build_or_update_dashboard (current_ids : List String)
    (gpu_data : List (String × GpuInfo)) : Option ReconcileOutcome :=
  let new_ids := gpu_data.map Prod.fst
  if eqAsSets current_ids new_ids then
    some (ReconcileOutcome.update (gpu_data.filter (fun e => current_ids.contains e.1)))
  else
    match sortIdsNumeric new_ids with
    | none => none
    | some ordered =>
      some (ReconcileOutcome.rebuild ordered (gpu_data.filter (fun e => ordered.contains e.1)))

/-- Result of the check_nvidia_smi preflight. -/
inductive ToolCheck where
  | available
  | notAvailable
  | notFound
deriving DecidableEq, Repr

/-- Status text set by check_nvidia_smi for each preflight outcome. -/
def checkStatusText : ToolCheck → String
  | ToolCheck.available => "nvidia-smi available"
  | ToolCheck.notAvailable => "nvidia-smi not available"
  | ToolCheck.notFound => "nvidia-smi not found"

/-- Core monitoring state: the stored sample (gpu_data), the ids of the
existing dashboard cards (gpu_cards keys), and the status line.  The
detailed and raw text panes are presentation-external and carry no
sample state. -/
structure MonitorState where
  gpu_data : List (String × GpuInfo)
  card_ids : List String
  status : String
deriving DecidableEq, Repr

/-- Cycle body refresh_gpu_data.  Inputs stand for the acquisition
results: the preflight outcome, the stdout of the summary query (none
models tool failure, timeout or non-zero exit) and the timestamp.  A
failed preflight shows the error and returns early; a falsy stdout
skips the reassignment of gpu_data; a none result models an exception
escaping the reconciler. -/
def refresh_gpu_data (st : MonitorState) (check : ToolCheck)
    (basic : Option String) (ts : String) : Option MonitorState :=
  let st1 : MonitorState := { st with status := checkStatusText check }
  if check ≠ ToolCheck.available then some st1
  else
    let gd := match basic with
      | some s => if s = "" then st1.gpu_data else parse_gpu_data s
      | none => st1.gpu_data
    match build_or_update_dashboard st1.card_ids gd with
    | none => none
    | some outcome =>
      some { gpu_data := gd
             card_ids := match outcome with
               | ReconcileOutcome.rebuild ordered _ => ordered
               | ReconcileOutcome.update _ => st1.card_ids
             status := "Last updated: " ++ ts }

/-- Inter-cycle wait of monitor_loop: time.sleep receives the raw
interval value; a negative argument raises ValueError, which the except
branch turns into loop termination (none). -/
def monitor_wait (n : Int) : Option Int :=
  if n < 0 then none else some n

/-- One iteration of monitor_loop: exits when monitoring is off,
otherwise schedules a refresh and waits the raw interval; none means
the loop body does not complete (exit or exception). -/
def monitor_loop_iter (is_monitoring : Bool) (interval : Int) : Option (Bool × Int) :=
  if !is_monitoring then none
  else
    match monitor_wait interval with
    | some w => some (true, w)
    | none => none

/-- Spinbox lower bound of the interval entry widget (a UI constraint
on the arrow buttons, not a Scheduler clamp). -/
def spinbox_from : Int := 1

/-- Spinbox upper bound of the interval entry widget. -/
def spinbox_to : Int := 60

attribute [local semireducible] Rat.add Rat.mul Rat.sub Rat.inv

/-- Numeric sort key of an id, defined where the id parses (all ids the
reconciler sorts are required to be numeric). -/
def idKey (s : String) : Int :=
  (pyIntChars? s.data).getD 0

/-- Modelled from the spec: the claimed memory-percentage formula
round(used/total*100) with the Python round builtin (nearest integer,
ties to even) when total is positive, else 0.  Stated only to compare
the spec formula with the implemented mem_pct. -/
def memPctRound (used total : Int) : Int :=
  if 0 < total then
    let q : ℚ := ((used : ℚ) / (total : ℚ)) * 100
    let f : Int := Int.floor q
    if q - (f : ℚ) < 1 / 2 then f
    else if (1 : ℚ) / 2 < q - (f : ℚ) then f + 1
    else if f % 2 = 0 then f else f + 1
  else 0

/-- C9: the temperature severity band is Unknown (muted style) when the
temperature is absent, Nominal below 70, Warning from 70 through 79 and
Critical from 80 upward; 75 maps to Warning and 85 to Critical. -/
theorem get_temp_style_banding (t : Int) :
    get_temp_style none = "Muted.TLabel" ∧
    (t < 70 → get_temp_style (some t) = "TempOk.TLabel") ∧
    (70 ≤ t → t ≤ 79 → get_temp_style (some t) = "TempWarn.TLabel") ∧
    (80 ≤ t → get_temp_style (some t) = "TempHigh.TLabel") ∧
    get_temp_style (some 75) = "TempWarn.TLabel" ∧
    get_temp_style (some 85) = "TempHigh.TLabel" := by
  refine ⟨rfl, ?_, ?_, ?_, by decide, by decide⟩
  · intro h
    simp only [get_temp_style]
    rw [if_neg (by omega), if_neg (by omega)]
  · intro h1 h2
    simp only [get_temp_style]
    rw [if_neg (by omega), if_pos (by omega)]
  · intro h
    simp only [get_temp_style]
    rw [if_pos (by omega)]

/-- Witness for C9 at concrete temperatures. -/
theorem get_temp_style_banding_witness :
    ((65 : Int) < 70 ∧ get_temp_style (some 65) = "TempOk.TLabel") ∧
    ((70 : Int) ≤ 75 ∧ (75 : Int) ≤ 79 ∧ get_temp_style (some 75) = "TempWarn.TLabel") :=
  ⟨⟨by decide, (get_temp_style_banding 65).2.1 (by decide)⟩,
   ⟨by decide, by decide, (get_temp_style_banding 75).2.2.1 (by decide) (by decide)⟩⟩

/-- C2 counterexample: the Sample returned by parse stores the raw
utilization value; a source value of 150 is stored as 150, not 100, so
the stored field is not clamped into [0, 100]. -/
theorem parse_stores_unclamped_utilization :
    (lookupD "0" (parse_gpu_data "0, X, 50, 150, 100, 200, 10")).map GpuInfo.utilization
      = some (some 150) ∧ ¬ ((150 : Int) ≤ 100) :=
  ⟨by decide, by decide⟩

/-- C2 amended: parse stores the parsed utilization unclamped; the
clamping into [0, 100] is applied by the display layer to the
utilization-bar value (150 shows as bar value 100 and -5 as 0), while
the stored record keeps the raw value. -/
theorem util_bar_value_clamped (info : GpuInfo) :
    0 ≤ util_bar_value info ∧ util_bar_value info ≤ 100 ∧
    (info.utilization = some 150 → util_bar_value info = 100) ∧
    (info.utilization = some (-5) → util_bar_value info = 0) := by
  refine ⟨le_max_left 0 _, max_le (by norm_num) (min_le_right _ _), ?_, ?_⟩
  · intro h
    simp [util_bar_value, util_val, h]
  · intro h
    simp [util_bar_value, util_val, h]

/-- Witness for C2 amended at a concrete over-range record. -/
theorem util_bar_value_clamped_witness :
    (GpuInfo.mk "X" none (some 150) none none none).utilization = some 150 ∧
    util_bar_value (GpuInfo.mk "X" none (some 150) none none none) = 100 :=
  ⟨rfl, (util_bar_value_clamped (GpuInfo.mk "X" none (some 150) none none none)).2.2.1 rfl⟩

/-- C5 counterexample: with a requested interval of 0 the loop waits 0
seconds, so the effective wait is not at least 1. -/
theorem monitor_wait_not_clamped :
    monitor_wait 0 = some 0 ∧ ¬ (∀ w : Int, monitor_wait 0 = some w → 1 ≤ w) := by
  refine ⟨rfl, fun h => absurd (h 0 rfl) (by decide)⟩

/-- C5 amended: the Scheduler applies no clamping: a nonnegative
requested interval is waited exactly as given (0 gives a zero wait),
a negative interval raises inside time.sleep and the except branch
terminates the loop; the only lower bound of 1 lives in the interval
spinbox configuration at the UI boundary. -/
theorem monitor_wait_unclamped (n : Int) :
    (0 ≤ n → monitor_loop_iter true n = some (true, n)) ∧
    (n < 0 → monitor_loop_iter true n = none) ∧
    spinbox_from = 1 := by
  refine ⟨fun h => ?_, fun h => ?_, rfl⟩
  · simp [monitor_loop_iter, monitor_wait, not_lt.mpr h]
  · simp [monitor_loop_iter, monitor_wait, h]

/-- Witness for C5 amended at the zero interval. -/
theorem monitor_wait_unclamped_witness :
    (0 : Int) ≤ 0 ∧ monitor_loop_iter true 0 = some (true, 0) :=
  ⟨by decide, (monitor_wait_unclamped 0).1 (by decide)⟩

/-- C6 counterexample: a line whose utilization field does not parse
yields a record whose utilization is absent (None), not 0. -/
theorem parse_unparsable_util_absent :
    (lookupD "0" (parse_gpu_data "0, X, 50, abc, 100, 200, 10")).map GpuInfo.utilization
      = some none ∧
    (some (none : Option Int) : Option (Option Int)) ≠ some (some 0) :=
  ⟨by decide, by decide⟩

/-- C6 amended: each of the utilization, memory-used and memory-total
fields independently stores None (absent) when its own text fails to
parse, and the display layer then substitutes 0 for that absent value;
the other fields of the record are built normally from their own
parts. -/
theorem unparsable_numeric_fields_default (parts : List (List Char)) :
    (pyFloat? (getPart parts 3) = none →
      (recordOfParts parts).utilization = none ∧ util_val (recordOfParts parts) = 0) ∧
    (pyFloat? (getPart parts 4) = none →
      (recordOfParts parts).memory_used = none ∧ mem_used_i (recordOfParts parts) = 0) ∧
    (pyFloat? (getPart parts 5) = none →
      (recordOfParts parts).memory_total = none ∧ mem_total_i (recordOfParts parts) = 0) ∧
    (recordOfParts parts).name = String.mk (getPart parts 1) ∧
    (recordOfParts parts).power_draw = to_float (getPart parts 6) := by
  refine ⟨fun hu => ⟨?_, ?_⟩, fun hmu => ⟨?_, ?_⟩, fun hmt => ⟨?_, ?_⟩, rfl, rfl⟩
  · simp [recordOfParts, to_int, hu]
  · simp [util_val, recordOfParts, to_int, hu]
  · simp [recordOfParts, to_int, hmu]
  · simp [mem_used_i, recordOfParts, to_int, hmu]
  · simp [recordOfParts, to_int, hmt]
  · simp [mem_total_i, recordOfParts, to_int, hmt]

/-- Witness for C6 amended on a line where only the memory-total field
is unparsable (the bracketed not-available marker). -/
theorem unparsable_numeric_fields_default_witness :
    pyFloat? (getPart (lineParts "0, X, 50, 10, 100, [N/A], 10".data) 5) = none ∧
    (recordOfParts (lineParts "0, X, 50, 10, 100, [N/A], 10".data)).memory_total = none ∧
    mem_total_i (recordOfParts (lineParts "0, X, 50, 10, 100, [N/A], 10".data)) = 0 ∧
    (recordOfParts (lineParts "0, X, 50, 10, 100, [N/A], 10".data)).memory_used
      = some 100 :=
  ⟨by decide,
   ((unparsable_numeric_fields_default
      (lineParts "0, X, 50, 10, 100, [N/A], 10".data)).2.2.1 (by decide)).1,
   ((unparsable_numeric_fields_default
      (lineParts "0, X, 50, 10, 100, [N/A], 10".data)).2.2.1 (by decide)).2,
   by decide⟩

/-- C7 counterexample: at used 2 and total 3 the code computes the
truncation 66 while the round formula of the claim gives 67. -/
theorem mem_pct_not_round :
    mem_pct (GpuInfo.mk "" none none (some 2) (some 3) none) = 66 ∧
    memPctRound 2 3 = 67 ∧ (66 : Int) ≠ 67 :=
  ⟨by decide, by decide, by decide⟩

/-- C7 amended: the memory percentage is int((used/total)*100), the
truncation toward zero of the double-precision product, not round():
at used 2, total 3 it shows 66 where the round formula gives 67, and
the binary floating-point product can land below the exact quotient,
so the result can also differ from exact integer division, as at used
29 of total 100, which shows 28 while exact division gives 29; when
the total is 0 or absent the percentage is 0 with no division
performed; and the label of used 512, total 0 stays distinguishable
from used 0, total 0. -/
theorem mem_pct_truncation :
    (∀ j : GpuInfo, j.memory_total = some 0 ∨ j.memory_total = none → mem_pct j = 0) ∧
    mem_pct (GpuInfo.mk "" none none (some 2) (some 3) none) = 66 ∧
    memPctRound 2 3 = 67 ∧
    mem_pct (GpuInfo.mk "" none none (some 29) (some 100) none) = 28 ∧
    ((29 * 100 / 100 : Nat) : Int) = 29 ∧
    mem_label_text (GpuInfo.mk "" none none (some 512) (some 0) none)
      ≠ mem_label_text (GpuInfo.mk "" none none (some 0) (some 0) none) := by
  refine ⟨?_, by decide, by decide, by decide, by decide, by decide⟩
  intro j hj
  have hz : mem_total_i j = 0 := by
    rcases hj with h | h <;> simp [mem_total_i, h]
  simp [mem_pct, hz]

/-- Witness for C7 amended at a zero-capacity record. -/
theorem mem_pct_truncation_witness :
    (GpuInfo.mk "" none none (some 512) (some 0) none).memory_total = some 0 ∧
    mem_pct (GpuInfo.mk "" none none (some 512) (some 0) none) = 0 :=
  ⟨rfl,
   mem_pct_truncation.1 (GpuInfo.mk "" none none (some 512) (some 0) none) (Or.inl rfl)⟩

/-- C8: a power field that fails to parse leaves the stored power_draw
absent (None), and the absent value renders as the unknown marker
"-- W", never as a zero-watt reading. -/
theorem power_unparsable_absent (parts : List (List Char))
    (hp : pyFloat? (getPart parts 6) = none) :
    (recordOfParts parts).power_draw = none ∧
    power_label_text (recordOfParts parts) = "-- W" ∧
    power_label_text (recordOfParts parts) ≠ "0.00 W" := by
  have h1 : (recordOfParts parts).power_draw = none := by
    simp [recordOfParts, to_float, hp]
  have h2 : power_label_text (recordOfParts parts) = "-- W" := by
    simp [power_label_text, h1]
  refine ⟨h1, h2, ?_⟩
  rw [h2]
  decide

/-- Witness for C8 on a line whose power field reads N/A. -/
theorem power_unparsable_absent_witness :
    pyFloat? (getPart (lineParts "0, X, 50, 10, 100, 200, N/A".data) 6) = none ∧
    power_label_text (recordOfParts (lineParts "0, X, 50, 10, 100, 200, N/A".data)) = "-- W" :=
  ⟨by decide,
   (power_unparsable_absent (lineParts "0, X, 50, 10, 100, 200, N/A".data) (by decide)).2.1⟩

/-- Splitting a list that does not contain the separator yields the
single original piece. -/
theorem splitOnChar_single_of_not_mem (sep : Char) (l : List Char) (h : sep ∉ l) :
    splitOnChar sep l = [l] := by
  induction l with
  | nil => rfl
  | cons c rest ih =>
    have hc : ¬ (c = sep) := fun e => h (e ▸ List.mem_cons_self c rest)
    have hr : sep ∉ rest := fun m => h (List.mem_cons_of_mem c m)
    simp only [splitOnChar, if_neg hc, ih hr]

/-- A list whose trim is empty consists of whitespace only. -/
theorem all_isWS_of_trimChars_eq_nil (l : List Char) (h : trimChars l = []) :
    ∀ c ∈ l, isWS c = true := by
  intro c hc
  have h1 : (l.dropWhile isWS).reverse.dropWhile isWS = [] :=
    List.reverse_eq_nil_iff.mp h
  have h2 : ∀ x ∈ l.dropWhile isWS, isWS x = true := by
    intro x hx
    exact List.dropWhile_eq_nil_iff.mp h1 x (List.mem_reverse.mpr hx)
  have h3 : c ∈ l.takeWhile isWS ∨ c ∈ l.dropWhile isWS := by
    rw [← List.mem_append, List.takeWhile_append_dropWhile]
    exact hc
  rcases h3 with h3 | h3
  · exact List.mem_takeWhile_imp h3
  · exact h2 c h3

/-- A line containing a non-whitespace character does not trim away. -/
theorem trimChars_ne_nil_of_mem_not_WS (l : List Char) (c : Char) (hc : c ∈ l)
    (hw : isWS c = false) : trimChars l ≠ [] := by
  intro h
  have := all_isWS_of_trimChars_eq_nil l h c hc
  rw [hw] at this
  exact Bool.false_ne_true this

/-- A line that splits into two or more comma fields is not blank. -/
theorem trimChars_ne_nil_of_many_parts (l : List Char) (h : 2 ≤ (lineParts l).length) :
    trimChars l ≠ [] := by
  by_cases hm : ',' ∈ l
  · exact trimChars_ne_nil_of_mem_not_WS l ',' hm (by decide)
  · exfalso
    have he : lineParts l = [trimChars l] := by
      simp [lineParts, splitOnChar_single_of_not_mem ',' l hm]
    rw [he] at h
    simp at h

/-- Indexing below the take bound ignores the tail. -/
theorem getD_take {α : Type} (d : α) (p : List α) (n i : Nat) (hi : i < n) :
    (p.take n).getD i d = p.getD i d := by
  induction p generalizing n i with
  | nil => simp
  | cons a rest ih =>
    cases n with
    | zero => omega
    | succ m =>
      cases i with
      | zero => simp
      | succ j =>
        simp only [List.take, List.getD_cons_succ]
        exact ih m j (by omega)

/-- Records agree when the leading seven fields agree. -/
theorem recordOfParts_take7 (p1 p2 : List (List Char)) (h : p1.take 7 = p2.take 7) :
    recordOfParts p1 = recordOfParts p2 ∧ getPart p1 0 = getPart p2 0 := by
  have g : ∀ i, i < 7 → getPart p1 i = getPart p2 i := by
    intro i hi
    unfold getPart
    rw [← getD_take ([] : List Char) p1 7 i hi, ← getD_take ([] : List Char) p2 7 i hi, h]
  exact ⟨by simp [recordOfParts, g 1 (by omega), g 2 (by omega), g 3 (by omega),
    g 4 (by omega), g 5 (by omega), g 6 (by omega)], g 0 (by omega)⟩

/-- A line with fewer than seven fields leaves the dict unchanged. -/
theorem parseStep_neutral (acc : List (String × GpuInfo)) (l : List Char)
    (h : (lineParts l).length < 7) : parseStep acc l = acc := by
  simp only [parseStep]
  split
  · rw [if_neg (by omega)]
  · rfl

/-- A text all of whose lines are short parses to the empty dict. -/
theorem foldl_parseStep_all_short (lines : List (List Char)) (acc : List (String × GpuInfo))
    (h : ∀ l ∈ lines, (lineParts l).length < 7) : lines.foldl parseStep acc = acc := by
  induction lines generalizing acc with
  | nil => rfl
  | cons l ls ih =>
    rw [List.foldl_cons, parseStep_neutral acc l (h l (List.mem_cons_self l ls))]
    exact ih acc (fun x hx => h x (List.mem_cons_of_mem l hx))

/-- C3: parse is total and never raises: empty input gives the empty
sample, a completely unparsable text (every line under seven fields)
gives the empty sample, dropping a short line leaves the result
untouched (its id ignored), and a line with seven or more fields
contributes only through its first seven fields. -/
theorem parse_total_structure :
    parse_gpu_data "" = [] ∧
    (∀ data : String,
      (∀ l ∈ splitOnChar '\n' (trimChars data.data), (lineParts l).length < 7) →
      parse_gpu_data data = []) ∧
    (∀ acc : List (String × GpuInfo), ∀ pre post : List (List Char), ∀ l : List Char,
      (lineParts l).length < 7 →
      (pre ++ l :: post).foldl parseStep acc = (pre ++ post).foldl parseStep acc) ∧
    (∀ acc : List (String × GpuInfo), ∀ l1 l2 : List Char,
      7 ≤ (lineParts l1).length → 7 ≤ (lineParts l2).length →
      (lineParts l1).take 7 = (lineParts l2).take 7 →
      parseStep acc l1 = parseStep acc l2) := by
  refine ⟨rfl, ?_, ?_, ?_⟩
  · intro data h
    by_cases hd : data = ""
    · simp [parse_gpu_data, hd]
    · rw [parse_gpu_data, if_neg hd]
      exact foldl_parseStep_all_short _ _ h
  · intro acc pre post l hl
    rw [List.foldl_append, List.foldl_append, List.foldl_cons, parseStep_neutral _ l hl]
  · intro acc l1 l2 h1 h2 htake
    have hn1 : trimChars l1 ≠ [] := trimChars_ne_nil_of_many_parts l1 (by omega)
    have hn2 : trimChars l2 ≠ [] := trimChars_ne_nil_of_many_parts l2 (by omega)
    obtain ⟨hrec, hkey⟩ := recordOfParts_take7 (lineParts l1) (lineParts l2) htake
    simp only [parseStep, if_pos hn1, if_pos hn2, if_pos h1, if_pos h2, hrec, hkey]

/-- Witness for C3: a two-field line inserted between lines contributes
nothing, at a concrete input. -/
theorem parse_total_structure_witness :
    (lineParts "1,2".data).length < 7 ∧
    (([] : List (List Char)) ++ "1,2".data :: []).foldl parseStep []
      = (([] : List (List Char)) ++ []).foldl parseStep [] :=
  ⟨by decide, parse_total_structure.2.2.1 [] [] [] "1,2".data (by decide)⟩

/-- Well-formedness of a line together with the id it carries: some id
exactly when the line is non-blank and has at least seven fields. -/
def wfId (line : List Char) : Option String :=
  if trimChars line ≠ [] then
    if 7 ≤ (lineParts line).length then some (String.mk (getPart (lineParts line) 0))
    else none
  else none

/-- The parse step in terms of wfId. -/
theorem parseStep_eq (acc : List (String × GpuInfo)) (l : List Char) :
    parseStep acc l =
      match wfId l with
      | some k => dictInsert k (recordOfParts (lineParts l)) acc
      | none => acc := by
  by_cases h1 : trimChars l ≠ [] <;> by_cases h2 : 7 ≤ (lineParts l).length <;>
    simp [parseStep, wfId, h1, h2]

/-- The last line of the list that is well-formed and carries the id k. -/
def lastWF (k : String) : List (List Char) → Option (List Char)
  | [] => none
  | l :: ls =>
    match lastWF k ls with
    | some r => some r
    | none => if wfId l = some k then some l else none

/-- Lookup after inserting the same key finds the new value. -/
theorem lookupD_dictInsert_self {α : Type} (k : String) (v : α) (d : List (String × α)) :
    lookupD k (dictInsert k v d) = some v := by
  induction d with
  | nil => simp [dictInsert, lookupD]
  | cons e rest ih =>
    obtain ⟨k2, v2⟩ := e
    by_cases h : k2 = k
    · simp [dictInsert, h, lookupD]
    · simp [dictInsert, h, lookupD, ih]

/-- Lookup of a different key is unchanged by an insert. -/
theorem lookupD_dictInsert_ne {α : Type} (k j : String) (v : α) (d : List (String × α))
    (h : j ≠ k) : lookupD k (dictInsert j v d) = lookupD k d := by
  induction d with
  | nil => simp [dictInsert, lookupD, h]
  | cons e rest ih =>
    obtain ⟨k2, v2⟩ := e
    by_cases h2 : k2 = j
    · subst h2
      simp [dictInsert, lookupD, h]
    · simp only [dictInsert, if_neg h2, lookupD, ih]

/-- Lookup into the parse fold: the record of the last well-formed line
with the key, else whatever the accumulator held. -/
theorem lookupD_foldl_parseStep (lines : List (List Char)) (acc : List (String × GpuInfo))
    (k : String) :
    lookupD k (lines.foldl parseStep acc) =
      match lastWF k lines with
      | some l => some (recordOfParts (lineParts l))
      | none => lookupD k acc := by
  induction lines generalizing acc with
  | nil => rfl
  | cons l ls ih =>
    rw [List.foldl_cons, ih (parseStep acc l)]
    cases hr : lastWF k ls with
    | some r => simp [lastWF, hr]
    | none =>
      simp only [lastWF, hr]
      rw [parseStep_eq]
      cases hw : wfId l with
      | none => simp
      | some j =>
        by_cases hj : j = k
        · subst hj
          simp [lookupD_dictInsert_self]
        · simp [lookupD_dictInsert_ne k j _ acc hj, hj]

/-- Keys after an insert: unchanged when the key was present, appended
otherwise. -/
theorem keys_dictInsert {α : Type} (k : String) (v : α) (d : List (String × α)) :
    (dictInsert k v d).map Prod.fst =
      if k ∈ d.map Prod.fst then d.map Prod.fst else d.map Prod.fst ++ [k] := by
  induction d with
  | nil => simp [dictInsert]
  | cons e rest ih =>
    obtain ⟨k2, v2⟩ := e
    by_cases h : k2 = k
    · subst h
      simp [dictInsert]
    · by_cases hm : k ∈ rest.map Prod.fst
      · simp [dictInsert, h, ih, hm, Ne.symm h]
      · simp [dictInsert, h, ih, hm, Ne.symm h]

/-- Inserting preserves distinctness of the keys. -/
theorem keys_nodup_dictInsert {α : Type} (k : String) (v : α) (d : List (String × α))
    (h : (d.map Prod.fst).Nodup) : ((dictInsert k v d).map Prod.fst).Nodup := by
  by_cases hm : k ∈ d.map Prod.fst
  · simpa [keys_dictInsert, hm] using h
  · rw [keys_dictInsert, if_neg hm]
    simp [List.nodup_append, h, hm]

/-- The parse fold preserves distinctness of the keys. -/
theorem keys_nodup_foldl (lines : List (List Char)) (acc : List (String × GpuInfo))
    (h : (acc.map Prod.fst).Nodup) : ((lines.foldl parseStep acc).map Prod.fst).Nodup := by
  induction lines generalizing acc with
  | nil => exact h
  | cons l ls ih =>
    rw [List.foldl_cons]
    refine ih (parseStep acc l) ?_
    rw [parseStep_eq]
    cases hw : wfId l with
    | none => exact h
    | some j => exact keys_nodup_dictInsert j _ acc h

/-- C10: the parsed sample holds at most one record per id: its key
list is duplicate-free, and the record found under an id is exactly the
one parsed from the last well-formed line carrying that id (later lines
overwrite earlier ones); ids without such a line are absent; no error
is possible since the parser is a total function. -/
theorem parse_last_line_wins (data : String) (k : String) :
    ((parse_gpu_data data).map Prod.fst).Nodup ∧
    lookupD k (parse_gpu_data data) =
      (match lastWF k (splitOnChar '\n' (trimChars data.data)) with
       | some l => some (recordOfParts (lineParts l))
       | none => none) := by
  by_cases hd : data = ""
  · subst hd
    refine ⟨by simp [parse_gpu_data], ?_⟩
    have h2 : splitOnChar '\n' (trimChars "".data) = [[]] := by decide
    have hw : wfId [] = none := by decide
    have h1 : lastWF k [[]] = none := by simp [lastWF, hw]
    rw [h2, h1]
    simp [parse_gpu_data, lookupD]
  · rw [parse_gpu_data, if_neg hd]
    refine ⟨keys_nodup_foldl _ [] (by simp), ?_⟩
    rw [lookupD_foldl_parseStep]
    rfl

/-- Key attachment succeeds on numeric ids and pairs each id with its
parsed value. -/
theorem attachIntKeys_spec (ids : List String)
    (h : ∀ k ∈ ids, (pyIntChars? k.data).isSome = true) :
    ∃ keyed, attachIntKeys ids = some keyed ∧ keyed.map Prod.snd = ids ∧
      ∀ p ∈ keyed, pyIntChars? p.2.data = some p.1 := by
  induction ids with
  | nil => exact ⟨[], rfl, rfl, by simp⟩
  | cons k ks ih =>
    have hk := h k (List.mem_cons_self k ks)
    obtain ⟨n, hn⟩ := Option.isSome_iff_exists.mp hk
    obtain ⟨keyed, h1, h2, h3⟩ := ih (fun x hx => h x (List.mem_cons_of_mem k hx))
    refine ⟨(n, k) :: keyed, ?_, by simp [h2], ?_⟩
    · simp [attachIntKeys, hn, h1]
    · intro p hp
      rcases List.mem_cons.mp hp with rfl | hp
      · simpa using hn
      · exact h3 p hp

/-- The numeric id sort succeeds on numeric ids and returns a sorted
permutation of the input. -/
theorem sortIdsNumeric_spec (ids : List String)
    (h : ∀ k ∈ ids, (pyIntChars? k.data).isSome = true) :
    ∃ l, sortIdsNumeric ids = some l ∧ l.Perm ids ∧
      l.Pairwise (fun a b => idKey a ≤ idKey b) := by
  obtain ⟨keyed, h1, h2, h3⟩ := attachIntKeys_spec ids h
  refine ⟨(keyed.insertionSort keyLe).map Prod.snd, ?_, ?_, ?_⟩
  · simp [sortIdsNumeric, h1]
  · have hp := (List.perm_insertionSort keyLe keyed).map Prod.snd
    rw [h2] at hp
    exact hp
  · have hs : (keyed.insertionSort keyLe).Pairwise keyLe :=
      List.sorted_insertionSort keyLe keyed
    have h3s : ∀ p ∈ keyed.insertionSort keyLe, pyIntChars? p.2.data = some p.1 := by
      intro p hp
      exact h3 p ((List.perm_insertionSort keyLe keyed).mem_iff.mp hp)
    have hs2 : (keyed.insertionSort keyLe).Pairwise (fun a b => idKey a.2 ≤ idKey b.2) := by
      refine hs.imp_of_mem ?_
      intro a b ha hb hab
      have hka : idKey a.2 = a.1 := by simp [idKey, h3s a ha]
      have hkb : idKey b.2 = b.1 := by simp [idKey, h3s b hb]
      rw [hka, hkb]
      exact hab
    exact List.pairwise_map.mpr hs2

/-- Set-equal id lists carry each member of the left into the right. -/
theorem eqAsSets_mem (a b : List String) (h : eqAsSets a b = true) (x : String)
    (hx : x ∈ a) : x ∈ b := by
  simp only [eqAsSets, Bool.and_eq_true, List.all_eq_true] at h
  have hc := h.1 x hx
  simpa using hc

/-- Lookup of a present key succeeds. -/
theorem lookupD_isSome_of_mem_keys {α : Type} (S : List (String × α)) (id : String)
    (h : id ∈ S.map Prod.fst) : (lookupD id S).isSome = true := by
  induction S with
  | nil => simp at h
  | cons e rest ih =>
    obtain ⟨k2, v2⟩ := e
    by_cases hk : k2 = id
    · simp [lookupD, hk]
    · have : id ∈ rest.map Prod.fst := by
        rcases List.mem_cons.mp h with h1 | h1
        · exact absurd h1.symm hk
        · exact h1
      simp [lookupD, hk, ih this]

/-- Filtering by a key set the looked-up key belongs to does not change
the lookup result. -/
theorem lookupD_filter_contains {α : Type} (P : List String) (S : List (String × α))
    (id : String) (hid : id ∈ P) :
    lookupD id (S.filter (fun e => P.contains e.1)) = lookupD id S := by
  induction S with
  | nil => rfl
  | cons e rest ih =>
    obtain ⟨k2, v2⟩ := e
    by_cases hm : k2 ∈ P
    · rw [List.filter_cons, if_pos (by simpa using hm)]
      by_cases hk : k2 = id
      · simp [lookupD, hk]
      · simp only [lookupD, if_neg hk]
        exact ih
    · have hk : ¬ (k2 = id) := fun e => hm (e ▸ hid)
      rw [List.filter_cons, if_neg (by simpa using hm), ih]
      simp [lookupD, hk]

/-- C1: the reconciler emits a rebuild exactly when the key set of the
parsed sample differs from the previously known id set (an
order-independent set comparison): on difference it returns the sample
ids as a permutation sorted ascending by numeric id value, and on set
equality it returns an update that delivers the new record for every
previously known id. -/
theorem reconcile_rebuild_or_update (P : List String) (data : String)
    (hnum : ∀ k ∈ (parse_gpu_data data).map Prod.fst, (pyIntChars? k.data).isSome = true) :
    (eqAsSets P ((parse_gpu_data data).map Prod.fst) = false →
      ∃ l d, build_or_update_dashboard P (parse_gpu_data data)
          = some (ReconcileOutcome.rebuild l d) ∧
        l.Perm ((parse_gpu_data data).map Prod.fst) ∧
        l.Pairwise (fun a b => idKey a ≤ idKey b)) ∧
    (eqAsSets P ((parse_gpu_data data).map Prod.fst) = true →
      ∃ u, build_or_update_dashboard P (parse_gpu_data data)
          = some (ReconcileOutcome.update u) ∧
        ∀ id ∈ P, (lookupD id u).isSome = true ∧
          lookupD id u = lookupD id (parse_gpu_data data)) := by
  constructor
  · intro hne
    obtain ⟨l, h1, h2, h3⟩ := sortIdsNumeric_spec ((parse_gpu_data data).map Prod.fst) hnum
    refine ⟨l, (parse_gpu_data data).filter (fun e => l.contains e.1), ?_, h2, h3⟩
    simp [build_or_update_dashboard, hne, h1]
  · intro heq
    refine ⟨(parse_gpu_data data).filter (fun e => P.contains e.1), ?_, ?_⟩
    · simp [build_or_update_dashboard, heq]
    · intro id hid
      constructor
      · rw [lookupD_filter_contains P (parse_gpu_data data) id hid]
        exact lookupD_isSome_of_mem_keys (parse_gpu_data data) id
          (eqAsSets_mem P ((parse_gpu_data data).map Prod.fst) heq id hid)
      · exact lookupD_filter_contains P (parse_gpu_data data) id hid

/-- Witness for C1 on a concrete two-device sample arriving in reverse
order against a one-device previous set. -/
theorem reconcile_rebuild_or_update_witness :
    (∀ k ∈ (parse_gpu_data "1, A, 1, 1, 1, 1, 1\n0, B, 1, 1, 1, 1, 1").map Prod.fst,
      (pyIntChars? k.data).isSome = true) ∧
    eqAsSets ["0"] ((parse_gpu_data "1, A, 1, 1, 1, 1, 1\n0, B, 1, 1, 1, 1, 1").map Prod.fst)
      = false ∧
    (∃ l d,
      build_or_update_dashboard ["0"] (parse_gpu_data "1, A, 1, 1, 1, 1, 1\n0, B, 1, 1, 1, 1, 1")
          = some (ReconcileOutcome.rebuild l d) ∧
      l.Perm ((parse_gpu_data "1, A, 1, 1, 1, 1, 1\n0, B, 1, 1, 1, 1, 1").map Prod.fst) ∧
      l.Pairwise (fun a b => idKey a ≤ idKey b)) :=
  ⟨by decide, by decide,
    (reconcile_rebuild_or_update ["0"] "1, A, 1, 1, 1, 1, 1\n0, B, 1, 1, 1, 1, 1"
      (by decide)).1 (by decide)⟩

/-- C4: a cycle whose acquisition fails (failed preflight, or a data
query yielding nothing through tool loss, timeout or non-zero exit)
leaves the stored sample and the card-id set exactly as they were: the
new state differs from the old at most in the status text, the last
good sample stays on display, and the cycle returns normally, so no
exception passes the loop boundary. -/
theorem refresh_failure_no_mutation (st : MonitorState) (check : ToolCheck)
    (basic : Option String) (ts : String)
    (hinv : eqAsSets st.card_ids (st.gpu_data.map Prod.fst) = true)
    (hfail : check ≠ ToolCheck.available ∨ basic = none) :
    ∃ s, refresh_gpu_data st check basic ts = some { st with status := s } := by
  rcases hfail with hc | hb
  · refine ⟨checkStatusText check, ?_⟩
    simp only [refresh_gpu_data]
    rw [if_pos hc]
  · by_cases hc : check = ToolCheck.available
    · subst hc
      subst hb
      refine ⟨"Last updated: " ++ ts, ?_⟩
      have hbu : build_or_update_dashboard st.card_ids st.gpu_data
          = some (ReconcileOutcome.update
              (st.gpu_data.filter (fun e => st.card_ids.contains e.1))) := by
        simp [build_or_update_dashboard, hinv]
      simp [refresh_gpu_data, hbu]
    · refine ⟨checkStatusText check, ?_⟩
      simp only [refresh_gpu_data]
      rw [if_pos hc]

/-- Witness for C4: a failed data query on the empty initial state. -/
theorem refresh_failure_no_mutation_witness :
    eqAsSets (MonitorState.mk [] [] "Ready").card_ids
        ((MonitorState.mk [] [] "Ready").gpu_data.map Prod.fst) = true ∧
    (∃ s, refresh_gpu_data (MonitorState.mk [] [] "Ready") ToolCheck.available none "12:00:00"
        = some { MonitorState.mk [] [] "Ready" with status := s }) :=
  ⟨by decide,
   refresh_failure_no_mutation (MonitorState.mk [] [] "Ready") ToolCheck.available none
     "12:00:00" (by decide) (Or.inr rfl)⟩
